import Mathlib

/-!
Verification of the firecrawl job-orchestration core against its
natural-language specification.  The two source files are embedded
shallowly: `runWebScraper.ts` (crawl executor, billing gate, progress
buffer, job save) and the admin/server file (unpause recovery handler,
completed-job cleanup, cluster supervisor).  Stateful and effectful
code is modelled as pure functions that return, alongside their result,
the ordered list of externally visible events they perform.
-/

namespace Firecrawl

/-- `Document.metadata` from `src/lib/entities`: only `sourceURL` is
relevant to the executor.  `none` models an absent field; the empty
string is JS-falsy, which the truthiness test below accounts for. -/
structure Metadata where
  sourceURL : Option String
deriving DecidableEq, Repr

/-- A crawled document: extracted `content` plus metadata. -/
structure Document where
  content : String
  metadata : Metadata
deriving DecidableEq, Repr

/-- One entry of the filtered result set.  In the TypeScript source the
`returnOnlyUrls` branch maps each document to `{url}` when
`doc.metadata.sourceURL` is truthy and to `undefined` otherwise, so the
element type is `Document | {url: string} | undefined`. -/
inductive FilteredDoc where
  | doc (d : Document)
  | url (u : String)
  | undefinedEntry
deriving DecidableEq, Repr

/-- A progress event from the crawl pipeline; the executor only looks at
`currentDocument` (JS truthiness of an object: present or absent). -/
structure Progress where
  currentDocument : Option Document
deriving DecidableEq, Repr

/-- The crawler options consulted by `runWebScraper`. -/
structure CrawlerOptions where
  returnOnlyUrls : Bool
deriving DecidableEq, Repr

/-- The value `runWebScraper` resolves with. -/
structure RunResult where
  success : Bool
  message : String
  docs : List FilteredDoc
deriving DecidableEq, Repr

/-- Externally visible events performed while executing a job:
`job.progress` updates, the `billTeam` call, the supabase row update in
`saveJob`, and the bull terminal transitions. -/
inductive Event where
  | jobProgress (partialDocs : List Document)
  | billTeam (team : String) (count : Nat)
  | dbUpdate (jobId : String) (docs : List FilteredDoc)
  | moveToCompleted (result : Option (List FilteredDoc))
  | moveToFailed (message : String)
deriving DecidableEq, Repr

/-- JS truthiness of `doc.metadata.sourceURL`: present and non-empty. -/
def truthyStr : Option String → Bool
  | none => false
  | some s => s != ""

/-- The per-document mapping of the `returnOnlyUrls` branch:
`doc.metadata.sourceURL` truthy yields `{url: sourceURL}`, otherwise the
arrow function returns `undefined`. -/
def mapUrlEntry (d : Document) : FilteredDoc :=
  match d.metadata.sourceURL with
  | some u => if u != "" then .url u else .undefinedEntry
  | none => .undefinedEntry

/-- JS `String.prototype.trim`: strip leading and trailing whitespace.
Modelled executably on the character list (Lean's own `String.trim`
does not reduce in the kernel). -/
def jsTrim (s : String) : List Char :=
  ((s.data.dropWhile Char.isWhitespace).reverse.dropWhile
    Char.isWhitespace).reverse

/-- Document filtering in `runWebScraper` (lines 86–92): `returnOnlyUrls`
maps every document through `mapUrlEntry`; otherwise documents whose
trimmed content has zero length (`doc.content.trim().length > 0` fails)
are dropped. -/
def filterDocs (returnOnlyUrls : Bool) (docs : List Document) : List FilteredDoc :=
  if returnOnlyUrls then
    docs.map mapUrlEntry
  else
    (docs.filter (fun d => (jsTrim d.content).length > 0)).map .doc

/-- `partialDocs.push(doc)` followed by `slice(-50)` when the buffer
exceeds 50 entries (keeps the last 50). -/
def pushDoc (buf : List Document) (d : Document) : List Document :=
  let b := buf ++ [d]
  if b.length > 50 then b.drop (b.length - 50) else b

/-- The `inProgress` callback built in `startWebScraperPipeline`
(lines 25–33): when the progress event carries a document, push it into
the bounded buffer and emit a `job.progress` update with the buffer. -/
def inProgressStep (buf : List Document) (p : Progress) :
    List Document × List Event :=
  match p.currentDocument with
  | none => (buf, [])
  | some d =>
      let b := pushDoc buf d
      (b, [.jobProgress b])

/-- Sequentially run a stateful progress callback over the pipeline's
stream of progress events, collecting the emitted events in order. -/
def runCallbacks {σ : Type} (inProg : σ → Progress → σ × List Event)
    (s : σ) : List Progress → σ × List Event
  | [] => (s, [])
  | p :: rest =>
      let r := inProg s p
      let rec' := runCallbacks inProg r.1 rest
      (rec'.1, r.2 ++ rec'.2)

/-- A run of the crawl pipeline (`provider.getDocuments`): the progress
events it emits while running, then either the produced documents or a
thrown error's message. -/
structure PipelineRun where
  progressEvents : List Progress
  outcome : Except String (List Document)
deriving Repr

/-- The billing-failure message returned at line 100. -/
def billingFailMsg : String := "Failed to bill team, no subscription was found"

/-- `runWebScraper` (lines 44–115), parameterised like the source over
the `inProgress`, `onSuccess` and `onError` callbacks (each modelled by
the events it performs) and over the external collaborators: the
pipeline run and the success flag of the one `billTeam` call.  A thrown
pipeline error lands in the `catch` block, which calls `onError` and
returns `{success:false, message, docs:[]}`.  Zero documents short-
circuit to success.  Otherwise the documents are filtered, `billTeam`
is charged with the filtered count; on billing failure the function
returns the billing failure result without invoking any callback; on
success `onSuccess` runs and the filtered set is returned. -/
def runWebScraper {σ : Type} (crawlerOptions : CrawlerOptions) (team_id : String)
    (inProgInit : σ) (inProg : σ → Progress → σ × List Event)
    (onSuccessEv : List FilteredDoc → List Event)
    (onErrorEv : String → List Event)
    (pipeline : PipelineRun) (billingSuccess : Bool) :
    RunResult × List Event :=
  let progEvents := (runCallbacks inProg inProgInit pipeline.progressEvents).2
  match pipeline.outcome with
  | .error msg =>
      ({ success := false, message := msg, docs := [] }, progEvents ++ onErrorEv msg)
  | .ok docs =>
      if docs.length = 0 then
        ({ success := true, message := "No pages found", docs := [] }, progEvents)
      else
        let filteredDocs := filterDocs crawlerOptions.returnOnlyUrls docs
        let evs := progEvents ++ [Event.billTeam team_id filteredDocs.length]
        if billingSuccess then
          ({ success := true, message := "", docs := filteredDocs },
            evs ++ onSuccessEv filteredDocs)
        else
          ({ success := false, message := billingFailMsg, docs := [] }, evs)

/-- `saveJob` (lines 117–141): with DB authentication the supabase row
is updated with the result; when the update response carries an error
(`if (error) throw new Error(error.message)`, line 125, modelled by
`dbUpdateOk = false`) the throw lands in `saveJob`'s own catch, which
only logs, so `moveToCompleted` is skipped.  When the update succeeds
the bull job is completed with `null`.  Without DB authentication the
job is completed with the result itself.  (`moveToCompleted`'s own
failure is swallowed by the inner try in both branches.) -/
def saveJob (useDbAuth dbUpdateOk : Bool) (jobId : String)
    (result : List FilteredDoc) : List Event :=
  if useDbAuth then
    if dbUpdateOk then
      [.dbUpdate jobId result, .moveToCompleted none]
    else
      [.dbUpdate jobId result]
  else
    [.moveToCompleted (some result)]

/-- `startWebScraperPipeline` (lines 14–43): runs `runWebScraper` with
the bounded-buffer `inProgress` callback, `onSuccess = saveJob` and
`onError = job.moveToFailed`.  `dbUpdateOk` is the outcome of the
supabase row update that `saveJob` performs in DB-auth mode. -/
def startWebScraperPipeline (opts : CrawlerOptions) (team_id jobId : String)
    (useDbAuth dbUpdateOk : Bool) (pipeline : PipelineRun)
    (billingSuccess : Bool) : RunResult × List Event :=
  runWebScraper opts team_id ([] : List Document) inProgressStep
    (saveJob useDbAuth dbUpdateOk jobId) (fun msg => [.moveToFailed msg])
    pipeline billingSuccess

/-- Event classifiers used by the temporal statements. -/
def isBillTeam : Event → Bool
  | .billTeam _ _ => true
  | _ => false

def isJobProgress : Event → Bool
  | .jobProgress _ => true
  | _ => false

def isFailedTransition : Event → Bool
  | .moveToFailed _ => true
  | _ => false

def isTerminalTransition : Event → Bool
  | .moveToFailed _ => true
  | .moveToCompleted _ => true
  | _ => false

def isMoveToCompleted : Event → Bool
  | .moveToCompleted _ => true
  | _ => false

/-! ## Admin server (unnamed source file): recovery, cleanup, supervisor -/

/-- A bull job as the unpause handler sees it: its external id and its
(opaque) payload `data`. -/
structure QJob where
  id : String
  data : String
deriving DecidableEq, Repr

/-- Events performed by the unpause (reclaim-and-requeue) handler. -/
inductive AdminEvent where
  | delLock (id : String)
  | takeLock (id : String)
  | moveToFailed (id : String) (message : String)
  | removeJob (id : String)
  | warnFailed (id : String)
  | addBulk (entries : List (String × String))
  | resume
deriving DecidableEq, Repr

/-- Failure injection for one job's reclamation: which of the four store
calls inside the per-job `try` throws (`ok` = none does). -/
inductive ReclaimFail where
  | ok
  | atDelLock
  | atTakeLock
  | atMoveToFailed
  | atRemove
deriving DecidableEq, Repr

/-- The per-job body of the unpause handler (lines 147–156 of the admin
file): delete the lock key, take the lock, move the job to failed with
message "interrupted", remove it; any throw is caught and logged
(`console.warn`), completing that job's reclamation without rethrowing. -/
def reclaimOne (j : QJob) (f : ReclaimFail) : List AdminEvent :=
  match f with
  | .ok =>
      [.delLock j.id, .takeLock j.id, .moveToFailed j.id "interrupted",
        .removeJob j.id]
  | .atDelLock => [.warnFailed j.id]
  | .atTakeLock => [.delLock j.id, .warnFailed j.id]
  | .atMoveToFailed => [.delLock j.id, .takeLock j.id, .warnFailed j.id]
  | .atRemove =>
      [.delLock j.id, .takeLock j.id, .moveToFailed j.id "interrupted",
        .warnFailed j.id]

/-- The unpause handler (lines 136–175): over the active jobs (paired
here with their injected reclamation failure), reclaim each, then
re-add every job with its original `data` and its original id via
`addBulk`, then resume the queue.  When there are no active jobs the
removal and re-add steps are skipped and the queue is just resumed. -/
def unpauseHandler (items : List (QJob × ReclaimFail)) : List AdminEvent :=
  let jobs := items.map (fun it => it.1)
  (if jobs.length > 0 then
    (items.map (fun it => reclaimOne it.1 it.2)).flatten ++
      [AdminEvent.addBulk (jobs.map (fun x => (x.data, x.id)))]
  else []) ++ [AdminEvent.resume]

/-- A completed bull job as the cleanup handler sees it: id and the
`finishedOn` completion timestamp (ms since epoch, as an integer). -/
structure CompletedJob where
  id : String
  finishedOn : Int
deriving DecidableEq, Repr

/-- The selection filter of `clean-before-24h-complete-jobs`
(lines 279–281): keep the jobs with
`finishedOn < Date.now() - 24*60*60*1000`; exactly these are then
removed one by one. -/
def before24hJobs (now : Int) (completedJobs : List CompletedJob) :
    List CompletedJob :=
  completedJobs.filter (fun job => job.finishedOn < now - 24 * 60 * 60 * 1000)

/-- Supervisor event: forking a worker process. -/
inductive ClusterEvent where
  | fork
deriving DecidableEq, Repr

/-- The cluster master's `exit` listener (lines 30–36): a replacement
worker is forked only when the exit `code` is not `null` (`code` is
`null` in Node when the worker was terminated by a signal). -/
def onWorkerExit (code : Option Int) : List ClusterEvent :=
  match code with
  | some _ => [.fork]
  | none => []

/-- A progress-buffer event carries at most 50 documents. -/
def bufWithin50 : Event → Bool
  | .jobProgress b => b.length ≤ 50
  | _ => true

/-- The spec-side predicate "content is empty or whitespace-only". -/
def isWhitespaceOnly (s : String) : Bool := jsTrim s = []

/-! ## Helper lemmas -/

lemma all_jobProgress (s : List Document) (ps : List Progress) :
    ((runCallbacks inProgressStep s ps).2).all isJobProgress = true := by
  induction ps generalizing s with
  | nil => rfl
  | cons p rest ih =>
      cases hp : p.currentDocument with
      | none => simp [runCallbacks, inProgressStep, hp, ih]
      | some d => simp [runCallbacks, inProgressStep, hp, ih, isJobProgress]

lemma countP_isBillTeam_of_progress (l : List Event)
    (h : l.all isJobProgress = true) : l.countP isBillTeam = 0 := by
  rw [List.countP_eq_zero]
  intro a ha
  have := (List.all_eq_true.mp h) a ha
  cases a <;> simp_all [isJobProgress, isBillTeam]

lemma not_terminal_of_progress (l : List Event)
    (h : l.all isJobProgress = true) :
    l.all (fun e => !(isTerminalTransition e)) = true := by
  simp only [List.all_eq_true] at h ⊢
  intro a ha
  have := h a ha
  cases a <;> simp_all [isJobProgress, isTerminalTransition]

lemma pushDoc_length_le (buf : List Document) (d : Document)
    (h : buf.length ≤ 50) : (pushDoc buf d).length ≤ 50 := by
  simp only [pushDoc]
  by_cases hl : (buf ++ [d]).length > 50
  · simp only [hl, if_true, List.length_drop]
    omega
  · simp only [hl, if_false]
    simp only [List.length_append, List.length_cons, List.length_nil] at hl ⊢
    omega

lemma pushDoc_evict (buf : List Document) (d : Document)
    (h : buf.length = 50) : pushDoc buf d = buf.drop 1 ++ [d] := by
  simp only [pushDoc]
  have hlen : (buf ++ [d]).length = 51 := by simp [h]
  rw [if_pos (by omega)]
  rw [hlen, List.drop_append_eq_append_drop]
  simp [h]

lemma runCallbacks_buffer_bound (s : List Document) (ps : List Progress)
    (h : s.length ≤ 50) :
    ((runCallbacks inProgressStep s ps).2).all bufWithin50 = true := by
  induction ps generalizing s with
  | nil => rfl
  | cons p rest ih =>
      cases hp : p.currentDocument with
      | none => simp [runCallbacks, inProgressStep, hp, ih s h]
      | some d =>
          have hb := pushDoc_length_le s d h
          simp [runCallbacks, inProgressStep, hp, ih _ hb, bufWithin50, hb]

/-! ## Claim theorems -/

/-- C3: a crawl pipeline run that completes with zero documents makes
`runWebScraper` return success with the "No pages found" message and an
empty document set — not a failure. -/
theorem zeroDocs_success (opts : CrawlerOptions) (team jobId : String)
    (useDbAuth dbUpdateOk : Bool) (ps : List Progress) (billing : Bool) :
    (startWebScraperPipeline opts team jobId useDbAuth dbUpdateOk
        ⟨ps, .ok []⟩ billing).1 =
      { success := true, message := "No pages found", docs := [] } := by
  simp [startWebScraperPipeline, runWebScraper]

/-- C4: after every progress event is handled the partial-documents
buffer holds at most 50 documents, and appending a document to a full
buffer of 50 evicts exactly the oldest entry, keeping the most recent
50 in emission order. -/
theorem progressBuffer_bounded_and_evictsOldest :
    (∀ ps : List Progress,
      ((runCallbacks inProgressStep ([] : List Document) ps).2).all
        bufWithin50 = true) ∧
    (∀ (buf : List Document) (d : Document), buf.length = 50 →
      pushDoc buf d = buf.drop 1 ++ [d]) := by
  constructor
  · intro ps
    exact runCallbacks_buffer_bound [] ps (by simp)
  · intro buf d h
    exact pushDoc_evict buf d h

/-- Witness for C4: a concrete full buffer of 50 documents evicts its
head when a 51st document arrives. -/
theorem progressBuffer_bounded_and_evictsOldest_witness :
    pushDoc (List.replicate 50 ⟨"a", ⟨some "https://a.example"⟩⟩)
        ⟨"b", ⟨some "https://b.example"⟩⟩ =
      (List.replicate 50 (⟨"a", ⟨some "https://a.example"⟩⟩ : Document)).drop 1 ++
        [⟨"b", ⟨some "https://b.example"⟩⟩] :=
  progressBuffer_bounded_and_evictsOldest.2 _ _ (by simp)

/-- C1 (amended): when the crawl pipeline returns a non-empty document
set and billing is rejected, `runWebScraper` reports overall failure
with the fixed billing-specific message (distinct from any crawl-
pipeline error path), but it performs no terminal job transition at
all: neither `moveToFailed` nor `moveToCompleted` is invoked, so the
job is not transitioned to the failed state. -/
theorem billingFailure_reported_without_failedTransition
    (opts : CrawlerOptions) (team jobId : String) (useDbAuth dbUpdateOk : Bool)
    (pl : PipelineRun) (docs : List Document)
    (hout : pl.outcome = .ok docs) (hne : docs ≠ []) :
    (startWebScraperPipeline opts team jobId useDbAuth dbUpdateOk pl false).1 =
      { success := false, message := billingFailMsg, docs := [] } ∧
    ((startWebScraperPipeline opts team jobId useDbAuth dbUpdateOk pl
        false).2).all (fun e => !(isTerminalTransition e)) = true := by
  obtain ⟨ps, outc⟩ := pl
  simp only at hout
  subst hout
  have hlen : docs.length ≠ 0 := by
    simpa using (fun h => hne (List.eq_nil_of_length_eq_zero h))
  constructor
  · simp [startWebScraperPipeline, runWebScraper, hlen]
  · have h1 := not_terminal_of_progress _ (all_jobProgress [] ps)
    simp [startWebScraperPipeline, runWebScraper, hlen, List.all_append,
      isTerminalTransition]
    intro x hx
    have h2 := (List.all_eq_true.mp h1) x hx
    simpa [isTerminalTransition] using h2

/-- Counterexample for C1 as stated: a concrete run whose pipeline
produced one document and whose billing call failed reports failure,
yet its event trace contains no `moveToFailed` — the job is not
transitioned to the failed state with the billing reason as result. -/
theorem billingFailure_failedTransition_cex :
    (startWebScraperPipeline ⟨false⟩ "team1" "job1" false true
        ⟨[], .ok [⟨"hello", ⟨some "https://x.example"⟩⟩]⟩ false).1.success
      = false ∧
    ((startWebScraperPipeline ⟨false⟩ "team1" "job1" false true
        ⟨[], .ok [⟨"hello", ⟨some "https://x.example"⟩⟩]⟩ false).2).any
      isFailedTransition = false := by
  constructor <;> rfl

/-- Witness for C1: the amended theorem instantiated at the concrete
counterexample run. -/
theorem billingFailure_reported_without_failedTransition_witness :
    (startWebScraperPipeline ⟨false⟩ "t" "j" false true
        ⟨[], .ok [⟨"hello", ⟨some "https://x.example"⟩⟩]⟩ false).1 =
      { success := false, message := billingFailMsg, docs := [] } ∧
    ((startWebScraperPipeline ⟨false⟩ "t" "j" false true
        ⟨[], .ok [⟨"hello", ⟨some "https://x.example"⟩⟩]⟩ false).2).all
      (fun e => !(isTerminalTransition e)) = true :=
  billingFailure_reported_without_failedTransition ⟨false⟩ "t" "j" false true
    ⟨[], .ok [⟨"hello", ⟨some "https://x.example"⟩⟩]⟩
    [⟨"hello", ⟨some "https://x.example"⟩⟩] rfl (by simp)

/-- C2 (amended): `billTeam` is called at most once per job execution —
never retried; executions whose pipeline completes with zero documents
and executions whose pipeline throws never call `billTeam` at all; and
when the pipeline completes with a non-empty document set `billTeam` is
called exactly once, charged with the filtered document count, with
every event before it a pipeline progress update and every event after
it neither another `billTeam` call nor a progress update — so the one
invocation happens after all pipeline progress events, after filtering,
and before any terminal transition. -/
theorem billTeam_atMostOnce_and_ordered :
    (∀ (opts : CrawlerOptions) (team jobId : String)
        (useDbAuth dbUpdateOk : Bool) (pl : PipelineRun) (billing : Bool),
      ((startWebScraperPipeline opts team jobId useDbAuth dbUpdateOk pl
        billing).2).countP isBillTeam ≤ 1) ∧
    (∀ (opts : CrawlerOptions) (team jobId : String)
        (useDbAuth dbUpdateOk : Bool) (pl : PipelineRun) (billing : Bool),
      pl.outcome = .ok [] →
      ((startWebScraperPipeline opts team jobId useDbAuth dbUpdateOk pl
        billing).2).countP isBillTeam = 0) ∧
    (∀ (opts : CrawlerOptions) (team jobId : String)
        (useDbAuth dbUpdateOk : Bool) (pl : PipelineRun) (billing : Bool)
        (msg : String),
      pl.outcome = .error msg →
      ((startWebScraperPipeline opts team jobId useDbAuth dbUpdateOk pl
        billing).2).countP isBillTeam = 0) ∧
    (∀ (opts : CrawlerOptions) (team jobId : String)
        (useDbAuth dbUpdateOk : Bool) (pl : PipelineRun) (billing : Bool)
        (docs : List Document),
      pl.outcome = .ok docs → docs ≠ [] →
      ∃ pre post,
        (startWebScraperPipeline opts team jobId useDbAuth dbUpdateOk pl
            billing).2 =
          pre ++
            Event.billTeam team (filterDocs opts.returnOnlyUrls docs).length ::
              post ∧
        pre.all isJobProgress = true ∧
        post.all (fun e => !(isBillTeam e) && !(isJobProgress e)) = true) := by
  refine ⟨?_, ?_, ?_, ?_⟩
  · intro opts team jobId useDbAuth dbUpdateOk pl billing
    obtain ⟨ps, outc⟩ := pl
    have hprog := countP_isBillTeam_of_progress _ (all_jobProgress [] ps)
    cases outc with
    | error msg =>
        simp [startWebScraperPipeline, runWebScraper, List.countP_append,
          hprog, isBillTeam]
    | ok docs =>
        by_cases hlen : docs.length = 0
        · simp [startWebScraperPipeline, runWebScraper, hlen, hprog]
        · cases billing with
          | false =>
              simp [startWebScraperPipeline, runWebScraper, hlen,
                List.countP_append, hprog, isBillTeam, List.countP_cons]
          | true =>
              simp [startWebScraperPipeline, runWebScraper, hlen,
                List.countP_append, hprog, isBillTeam, List.countP_cons,
                saveJob]
              by_cases hdb : useDbAuth <;>
                by_cases hup : dbUpdateOk <;>
                  simp [hdb, hup, List.countP_cons, isBillTeam]
  · intro opts team jobId useDbAuth dbUpdateOk pl billing hout
    obtain ⟨ps, outc⟩ := pl
    simp only at hout
    subst hout
    exact countP_isBillTeam_of_progress _ (all_jobProgress [] ps)
  · intro opts team jobId useDbAuth dbUpdateOk pl billing msg hout
    obtain ⟨ps, outc⟩ := pl
    simp only at hout
    subst hout
    have hprog := countP_isBillTeam_of_progress _ (all_jobProgress [] ps)
    simp [startWebScraperPipeline, runWebScraper, List.countP_append, hprog,
      isBillTeam]
  · intro opts team jobId useDbAuth dbUpdateOk pl billing docs hout hne
    obtain ⟨ps, outc⟩ := pl
    simp only at hout
    subst hout
    have hlen : docs.length ≠ 0 := by
      simpa using (fun h => hne (List.eq_nil_of_length_eq_zero h))
    refine ⟨(runCallbacks inProgressStep ([] : List Document) ps).2,
      (if billing then saveJob useDbAuth dbUpdateOk jobId
          (filterDocs opts.returnOnlyUrls docs)
        else []), ?_, all_jobProgress [] ps, ?_⟩
    · cases billing <;>
        simp [startWebScraperPipeline, runWebScraper, hlen]
    · cases billing with
      | false => simp
      | true =>
          simp only [if_true]
          by_cases hdb : useDbAuth <;>
            by_cases hup : dbUpdateOk <;>
              simp [saveJob, hdb, hup, isBillTeam, isJobProgress]

/-- Counterexample for C2 as stated: a concrete job execution whose
pipeline completed with zero documents never calls `billTeam` at all,
so the gate is not invoked exactly once on every job execution. -/
theorem billTeam_exactlyOnce_cex :
    ((startWebScraperPipeline ⟨false⟩ "team1" "job1" false true
        ⟨[], .ok []⟩ true).2).countP isBillTeam = 0 := by
  rfl

/-- Witness for C2: the never-invoked halves applied to a concrete
zero-document run and a concrete throwing run, and the ordering half
applied to a concrete successful one-document run. -/
theorem billTeam_atMostOnce_and_ordered_witness :
    ((startWebScraperPipeline ⟨false⟩ "t" "j" false true
      ⟨[], .ok []⟩ true).2).countP isBillTeam = 0 ∧
    ((startWebScraperPipeline ⟨false⟩ "t" "j" false true
      ⟨[], .error "boom"⟩ true).2).countP isBillTeam = 0 ∧
    ∃ pre post,
      (startWebScraperPipeline ⟨false⟩ "t" "j" false true
          ⟨[], .ok [⟨"hello", ⟨some "https://x.example"⟩⟩]⟩ true).2 =
        pre ++
          Event.billTeam "t"
              (filterDocs false [⟨"hello", ⟨some "https://x.example"⟩⟩]).length ::
            post ∧
      pre.all isJobProgress = true ∧
      post.all (fun e => !(isBillTeam e) && !(isJobProgress e)) = true :=
  ⟨billTeam_atMostOnce_and_ordered.2.1 ⟨false⟩ "t" "j" false true
      ⟨[], .ok []⟩ true rfl,
    billTeam_atMostOnce_and_ordered.2.2.1 ⟨false⟩ "t" "j" false true
      ⟨[], .error "boom"⟩ true "boom" rfl,
    billTeam_atMostOnce_and_ordered.2.2.2 ⟨false⟩ "t" "j" false true
      ⟨[], .ok [⟨"hello", ⟨some "https://x.example"⟩⟩]⟩ true
      [⟨"hello", ⟨some "https://x.example"⟩⟩] rfl (by simp)⟩

/-- C5 (amended): when the pipeline yields a non-empty document set and
billing succeeds, `runWebScraper` resolves with success and the
filtered set; without DB authentication the job is always completed
with the filtered set as its result; with DB authentication the
filtered set is written to the job's supabase row and the job completed
with `null` provided the row update succeeds — when the row update
errors, `saveJob`'s `if (error) throw` skips the completion transition
(the error is only logged), so no `moveToCompleted` occurs. -/
theorem success_completes_with_filtered_result
    (opts : CrawlerOptions) (team jobId : String) (useDbAuth dbUpdateOk : Bool)
    (pl : PipelineRun) (docs : List Document)
    (hout : pl.outcome = .ok docs) (hne : docs ≠ []) :
    (startWebScraperPipeline opts team jobId useDbAuth dbUpdateOk pl true).1 =
      { success := true, message := "",
        docs := filterDocs opts.returnOnlyUrls docs } ∧
    (useDbAuth = false →
      Event.moveToCompleted (some (filterDocs opts.returnOnlyUrls docs)) ∈
        (startWebScraperPipeline opts team jobId useDbAuth dbUpdateOk pl
          true).2) ∧
    (useDbAuth = true →
      Event.dbUpdate jobId (filterDocs opts.returnOnlyUrls docs) ∈
          (startWebScraperPipeline opts team jobId useDbAuth dbUpdateOk pl
            true).2 ∧
        (dbUpdateOk = true →
          Event.moveToCompleted none ∈
            (startWebScraperPipeline opts team jobId useDbAuth dbUpdateOk pl
              true).2) ∧
        (dbUpdateOk = false →
          ((startWebScraperPipeline opts team jobId useDbAuth dbUpdateOk pl
            true).2).all (fun e => !(isMoveToCompleted e)) = true)) := by
  obtain ⟨ps, outc⟩ := pl
  simp only at hout
  subst hout
  have hlen : docs.length ≠ 0 := by
    simpa using (fun h => hne (List.eq_nil_of_length_eq_zero h))
  refine ⟨?_, ?_, ?_⟩
  · simp [startWebScraperPipeline, runWebScraper, hlen]
  · intro hdb
    subst hdb
    simp [startWebScraperPipeline, runWebScraper, hlen, saveJob]
  · intro hdb
    subst hdb
    refine ⟨?_, ?_, ?_⟩
    · cases dbUpdateOk <;>
        simp [startWebScraperPipeline, runWebScraper, hlen, saveJob]
    · intro hup
      subst hup
      simp [startWebScraperPipeline, runWebScraper, hlen, saveJob]
    · intro hup
      subst hup
      have h1 := all_jobProgress ([] : List Document) ps
      simp [startWebScraperPipeline, runWebScraper, hlen, saveJob,
        List.all_append, isMoveToCompleted]
      intro x hx
      have h2 := (List.all_eq_true.mp h1) x hx
      cases x <;> simp_all [isJobProgress, isMoveToCompleted]

/-- Counterexample for C5 as stated: a concrete DB-auth run whose crawl
and billing both succeed but whose supabase row update errors performs
no `moveToCompleted` at all — the job is not transitioned to
completed. -/
theorem success_dbUpdateError_no_completion_cex :
    (startWebScraperPipeline ⟨false⟩ "t" "j" true false
        ⟨[], .ok [⟨"hello", ⟨some "https://x.example"⟩⟩]⟩ true).1.success
      = true ∧
    ((startWebScraperPipeline ⟨false⟩ "t" "j" true false
        ⟨[], .ok [⟨"hello", ⟨some "https://x.example"⟩⟩]⟩ true).2).any
      isMoveToCompleted = false := by
  constructor <;> rfl

/-- Witness for C5: a concrete successful DB-auth run whose row update
succeeds — the row is updated with the document and the job is
completed. -/
theorem success_completes_with_filtered_result_witness :
    (startWebScraperPipeline ⟨false⟩ "t" "j" true true
        ⟨[], .ok [⟨"hello", ⟨some "https://x.example"⟩⟩]⟩ true).1 =
      { success := true, message := "",
        docs := filterDocs false [⟨"hello", ⟨some "https://x.example"⟩⟩] } ∧
    (true = false →
      Event.moveToCompleted
          (some (filterDocs false [⟨"hello", ⟨some "https://x.example"⟩⟩])) ∈
        (startWebScraperPipeline ⟨false⟩ "t" "j" true true
          ⟨[], .ok [⟨"hello", ⟨some "https://x.example"⟩⟩]⟩ true).2) ∧
    (true = true →
      Event.dbUpdate "j"
            (filterDocs false [⟨"hello", ⟨some "https://x.example"⟩⟩]) ∈
          (startWebScraperPipeline ⟨false⟩ "t" "j" true true
            ⟨[], .ok [⟨"hello", ⟨some "https://x.example"⟩⟩]⟩ true).2 ∧
        (true = true →
          Event.moveToCompleted none ∈
            (startWebScraperPipeline ⟨false⟩ "t" "j" true true
              ⟨[], .ok [⟨"hello", ⟨some "https://x.example"⟩⟩]⟩ true).2) ∧
        (true = false →
          ((startWebScraperPipeline ⟨false⟩ "t" "j" true true
            ⟨[], .ok [⟨"hello", ⟨some "https://x.example"⟩⟩]⟩ true).2).all
            (fun e => !(isMoveToCompleted e)) = true)) :=
  success_completes_with_filtered_result ⟨false⟩ "t" "j" true true
    ⟨[], .ok [⟨"hello", ⟨some "https://x.example"⟩⟩]⟩
    [⟨"hello", ⟨some "https://x.example"⟩⟩] rfl (by simp)

/-- C6: when the job requested URLs only, every document (each carrying
a truthy source URL, as the data model guarantees) is mapped to just
its source URL; otherwise the filtered set is exactly the documents
whose content is not empty or whitespace-only, in order. -/
theorem filterDocs_spec :
    (∀ docs : List Document,
      (∀ d ∈ docs, truthyStr d.metadata.sourceURL = true) →
      filterDocs true docs =
        docs.map (fun d => FilteredDoc.url (d.metadata.sourceURL.getD ""))) ∧
    (∀ docs : List Document,
      filterDocs false docs =
        (docs.filter (fun d => !(isWhitespaceOnly d.content))).map
          FilteredDoc.doc) := by
  constructor
  · intro docs h
    simp only [filterDocs, if_true]
    apply List.map_congr_left
    intro d hd
    have hs := h d hd
    cases hsrc : d.metadata.sourceURL with
    | none => simp [truthyStr, hsrc] at hs
    | some u =>
        rw [hsrc] at hs
        simp only [truthyStr] at hs
        simp [mapUrlEntry, hsrc, hs]
  · intro docs
    simp only [filterDocs, if_false, Bool.false_eq_true]
    congr 1
    apply List.filter_congr
    intro d _
    by_cases h : jsTrim d.content = []
    · simp [isWhitespaceOnly, h]
    · have := List.length_pos.mpr h
      simp [isWhitespaceOnly, h, this]

/-- Witness for C6: concrete documents, one with whitespace-only
content; the URLs-only branch returns the two source URLs and the
content branch drops the blank document. -/
theorem filterDocs_spec_witness :
    filterDocs true
        [⟨"x", ⟨some "https://a.example"⟩⟩, ⟨"", ⟨some "https://b.example"⟩⟩] =
      [FilteredDoc.url "https://a.example", FilteredDoc.url "https://b.example"] ∧
    filterDocs false
        [⟨"x", ⟨some "https://a.example"⟩⟩, ⟨" ", ⟨some "https://b.example"⟩⟩] =
      [FilteredDoc.doc ⟨"x", ⟨some "https://a.example"⟩⟩] := by
  constructor
  · have h := filterDocs_spec.1
      [⟨"x", ⟨some "https://a.example"⟩⟩, ⟨"", ⟨some "https://b.example"⟩⟩]
      (by decide)
    rw [h]
    rfl
  · have h := filterDocs_spec.2
      [⟨"x", ⟨some "https://a.example"⟩⟩, ⟨" ", ⟨some "https://b.example"⟩⟩]
    rw [h]
    decide

/-- C10: with `returnOnlyUrls` set, the empty-content filter is never
applied: the billing charge counts every pipeline document (empty
content included), the result set is the elementwise URL mapping of the
full document list, and any document whose `metadata.sourceURL` is
absent (or JS-falsy) contributes an `undefined` entry instead of a
`{url}` object. -/
theorem returnOnlyUrls_bills_all_and_maps_undef
    (team jobId : String) (useDbAuth dbUpdateOk : Bool) (pl : PipelineRun)
    (docs : List Document) (billing : Bool)
    (hout : pl.outcome = .ok docs) (hne : docs ≠ []) :
    Event.billTeam team docs.length ∈
      (startWebScraperPipeline ⟨true⟩ team jobId useDbAuth dbUpdateOk pl
        billing).2 ∧
    filterDocs true docs = docs.map mapUrlEntry ∧
    (billing = true →
      (startWebScraperPipeline ⟨true⟩ team jobId useDbAuth dbUpdateOk pl
          billing).1.docs =
        docs.map mapUrlEntry) ∧
    (∀ d : Document, truthyStr d.metadata.sourceURL = false →
      mapUrlEntry d = FilteredDoc.undefinedEntry) := by
  obtain ⟨ps, outc⟩ := pl
  simp only at hout
  subst hout
  have hlen : docs.length ≠ 0 := by
    simpa using (fun h => hne (List.eq_nil_of_length_eq_zero h))
  have hflen : (filterDocs true docs).length = docs.length := by
    simp [filterDocs]
  refine ⟨?_, by simp [filterDocs], ?_, ?_⟩
  · cases billing <;>
      simp [startWebScraperPipeline, runWebScraper, hlen, hflen]
  · intro hb
    subst hb
    simp [startWebScraperPipeline, runWebScraper, hlen, filterDocs]
  · intro d hd
    cases hsrc : d.metadata.sourceURL with
    | none => simp [mapUrlEntry, hsrc]
    | some u =>
        rw [hsrc] at hd
        simp only [truthyStr] at hd
        simp [mapUrlEntry, hsrc, hd]

/-- Witness for C10: a run over an empty-content document and a
document without a source URL bills for both and yields an `undefined`
entry for the latter. -/
theorem returnOnlyUrls_bills_all_and_maps_undef_witness :
    Event.billTeam "t" 2 ∈
      (startWebScraperPipeline ⟨true⟩ "t" "j" false true
        ⟨[], .ok [⟨"", ⟨some "https://a.example"⟩⟩, ⟨"x", ⟨none⟩⟩]⟩ true).2 ∧
    filterDocs true [⟨"", ⟨some "https://a.example"⟩⟩, ⟨"x", ⟨none⟩⟩] =
      [⟨"", ⟨some "https://a.example"⟩⟩, (⟨"x", ⟨none⟩⟩ : Document)].map
        mapUrlEntry ∧
    (true = true →
      (startWebScraperPipeline ⟨true⟩ "t" "j" false true
          ⟨[], .ok [⟨"", ⟨some "https://a.example"⟩⟩, ⟨"x", ⟨none⟩⟩]⟩
          true).1.docs =
        [⟨"", ⟨some "https://a.example"⟩⟩, (⟨"x", ⟨none⟩⟩ : Document)].map
          mapUrlEntry) ∧
    (∀ d : Document, truthyStr d.metadata.sourceURL = false →
      mapUrlEntry d = FilteredDoc.undefinedEntry) :=
  returnOnlyUrls_bills_all_and_maps_undef "t" "j" false true
    ⟨[], .ok [⟨"", ⟨some "https://a.example"⟩⟩, ⟨"x", ⟨none⟩⟩]⟩
    [⟨"", ⟨some "https://a.example"⟩⟩, ⟨"x", ⟨none⟩⟩] true rfl (by simp)

lemma reclaimOne_mem_unpause (items : List (QJob × ReclaimFail))
    (e : AdminEvent) (it : QJob × ReclaimFail) (hit : it ∈ items)
    (he : e ∈ reclaimOne it.1 it.2) : e ∈ unpauseHandler items := by
  have hlen : 0 < (items.map (fun it => it.1)).length := by
    rcases items with _ | ⟨x, xs⟩
    · simp at hit
    · simp
  simp only [unpauseHandler, if_pos hlen]
  apply List.mem_append_left
  apply List.mem_append_left
  rw [List.mem_flatten]
  exact ⟨reclaimOne it.1 it.2, List.mem_map_of_mem _ hit, he⟩

/-- C7: the unpause (reclaim-and-requeue) handler, for each active job:
when its reclamation does not error it deletes the job's lock key,
takes the lock, moves the job to failed with message "interrupted" and
removes the record; when any of those store calls errors the failure is
logged (warn) and skipped, and — regardless of which jobs errored —
every job (including the errored ones) is re-added with its original
payload and its original id, and the queue is resumed. -/
theorem unpause_reclaims_each_and_requeues (items : List (QJob × ReclaimFail)) :
    (∀ it ∈ items, it.2 = ReclaimFail.ok →
      AdminEvent.delLock it.1.id ∈ unpauseHandler items ∧
      AdminEvent.takeLock it.1.id ∈ unpauseHandler items ∧
      AdminEvent.moveToFailed it.1.id "interrupted" ∈ unpauseHandler items ∧
      AdminEvent.removeJob it.1.id ∈ unpauseHandler items) ∧
    (∀ it ∈ items, it.2 ≠ ReclaimFail.ok →
      AdminEvent.warnFailed it.1.id ∈ unpauseHandler items) ∧
    (items ≠ [] →
      AdminEvent.addBulk (items.map (fun it => (it.1.data, it.1.id))) ∈
        unpauseHandler items) ∧
    AdminEvent.resume ∈ unpauseHandler items := by
  refine ⟨?_, ?_, ?_, ?_⟩
  · intro it hit hok
    exact ⟨reclaimOne_mem_unpause items _ it hit (by simp [reclaimOne, hok]),
      reclaimOne_mem_unpause items _ it hit (by simp [reclaimOne, hok]),
      reclaimOne_mem_unpause items _ it hit (by simp [reclaimOne, hok]),
      reclaimOne_mem_unpause items _ it hit (by simp [reclaimOne, hok])⟩
  · intro it hit hfail
    apply reclaimOne_mem_unpause items _ it hit
    cases h : it.2 with
    | ok => exact absurd h hfail
    | atDelLock => simp [reclaimOne]
    | atTakeLock => simp [reclaimOne]
    | atMoveToFailed => simp [reclaimOne]
    | atRemove => simp [reclaimOne]
  · intro hne
    have hlen : 0 < (items.map (fun it => it.1)).length := by
      rcases items with _ | ⟨x, xs⟩
      · exact absurd rfl hne
      · simp
    simp only [unpauseHandler, if_pos hlen]
    apply List.mem_append_left
    apply List.mem_append_right
    simp [List.map_map, Function.comp]
  · by_cases hlen : 0 < (items.map (fun it => it.1)).length <;>
      simp [unpauseHandler, hlen]

/-- Witness for C7: two active jobs, the second of which errors while
being moved to failed; the first is fully reclaimed, the second's error
is logged, both are re-added with their original data and ids, and the
queue is resumed. -/
theorem unpause_reclaims_each_and_requeues_witness :
    AdminEvent.removeJob "a" ∈
      unpauseHandler [(⟨"a", "da"⟩, ReclaimFail.ok),
        (⟨"b", "db"⟩, ReclaimFail.atMoveToFailed)] ∧
    AdminEvent.warnFailed "b" ∈
      unpauseHandler [(⟨"a", "da"⟩, ReclaimFail.ok),
        (⟨"b", "db"⟩, ReclaimFail.atMoveToFailed)] ∧
    AdminEvent.addBulk [("da", "a"), ("db", "b")] ∈
      unpauseHandler [(⟨"a", "da"⟩, ReclaimFail.ok),
        (⟨"b", "db"⟩, ReclaimFail.atMoveToFailed)] ∧
    AdminEvent.resume ∈
      unpauseHandler [(⟨"a", "da"⟩, ReclaimFail.ok),
        (⟨"b", "db"⟩, ReclaimFail.atMoveToFailed)] :=
  ⟨((unpause_reclaims_each_and_requeues _).1 (⟨"a", "da"⟩, ReclaimFail.ok)
      (by simp) rfl).2.2.2,
    (unpause_reclaims_each_and_requeues _).2.1
      (⟨"b", "db"⟩, ReclaimFail.atMoveToFailed) (by simp) (by simp),
    (unpause_reclaims_each_and_requeues _).2.2.1 (by simp),
    (unpause_reclaims_each_and_requeues _).2.2.2⟩

/-- C8: the cleanup endpoint's removal set is exactly the completed
jobs whose `finishedOn` is strictly older than 24 hours before now; in
particular a job that completed at most 24 hours ago (e.g. 23h59m ago)
is retained. -/
theorem cleanup_removes_only_strictly_older_than_24h
    (now : Int) (jobs : List CompletedJob) (j : CompletedJob) :
    (j ∈ before24hJobs now jobs ↔
      j ∈ jobs ∧ j.finishedOn < now - 24 * 60 * 60 * 1000) ∧
    (j ∈ jobs → now - 24 * 60 * 60 * 1000 ≤ j.finishedOn →
      j ∉ before24hJobs now jobs) := by
  constructor
  · simp [before24hJobs, List.mem_filter]
  · intro hj hge hmem
    simp only [before24hJobs, List.mem_filter, decide_eq_true_eq] at hmem
    omega

/-- Witness for C8: at `now = 10^12` ms, a job finished 23h59m earlier
is retained while a job finished 25h earlier is in the removal set. -/
theorem cleanup_removes_only_strictly_older_than_24h_witness :
    (⟨"fresh", 1000000000000 - 86340000⟩ : CompletedJob) ∉
      before24hJobs 1000000000000
        [⟨"fresh", 1000000000000 - 86340000⟩, ⟨"stale", 1000000000000 - 90000000⟩] ∧
    (⟨"stale", 1000000000000 - 90000000⟩ : CompletedJob) ∈
      before24hJobs 1000000000000
        [⟨"fresh", 1000000000000 - 86340000⟩, ⟨"stale", 1000000000000 - 90000000⟩] :=
  ⟨(cleanup_removes_only_strictly_older_than_24h 1000000000000
        [⟨"fresh", 1000000000000 - 86340000⟩, ⟨"stale", 1000000000000 - 90000000⟩]
        ⟨"fresh", 1000000000000 - 86340000⟩).2 (by simp) (by decide),
    (cleanup_removes_only_strictly_older_than_24h 1000000000000
        [⟨"fresh", 1000000000000 - 86340000⟩, ⟨"stale", 1000000000000 - 90000000⟩]
        ⟨"stale", 1000000000000 - 90000000⟩).1.mpr ⟨by simp, by decide⟩⟩

/-- C9 (amended): the supervisor forks a replacement exactly for exit
events whose exit code is non-null; an exit event with a null code
(the worker was terminated by a signal) forks no replacement. -/
theorem workerExit_refork_iff_nonNull_code :
    (∀ k : Int, onWorkerExit (some k) = [ClusterEvent.fork]) ∧
    onWorkerExit none = [] :=
  ⟨fun _ => rfl, rfl⟩

/-- Counterexample for C9 as stated: the exit event of a
signal-terminated worker (exit code `null`) does not fork a
replacement. -/
theorem workerExit_refork_cex :
    ClusterEvent.fork ∉ onWorkerExit none := by
  simp [onWorkerExit]

end Firecrawl
